import Mathlib

/-!
Shallow embedding of `src/state_root/node.rs` from zemse/zk-proof-of-evm-challenge:
the Merkle-Patricia-Trie proof verifier (`Node::load_proof`) and the node decoder
(`NodeData::new`).

Byte strings (`Bytes`, `H256`) are modelled as `List Nat` (one Nat per byte).
The external collaborators — the keccak256 hash primitive and the RLP decoder —
are out-of-scope external crates (`ethers_core`); following the spec's interface
contracts they are passed in as parameters:
  * `keccak : List Nat → List Nat` — deterministic digest, no failure mode;
  * `rlp : List Nat → Option (List (List Nat))` — `none` on malformed encoding,
    otherwise the list of the per-index raw byte slices of the RLP list.
Rust's `Result<(), Error>` becomes `Except Error Unit`; mutation of `&mut self`
becomes explicit state passing: `load_proof` returns the updated node together
with the result.
-/

namespace ZkMPT

/-- Constant `EMPTY_ROOT_STR`: the canonical empty-trie root hash
`0x56e81f171bcc55a6ff8345e692c0f86e5b48e01b996cadc001622fb5e363b421`, as bytes. -/
def EMPTY_ROOT : List Nat :=
  [0x56, 0xe8, 0x1f, 0x17, 0x1b, 0xcc, 0x55, 0xa6,
   0xff, 0x83, 0x45, 0xe6, 0x92, 0xc0, 0xf8, 0x6e,
   0x5b, 0x48, 0xe0, 0x1b, 0x99, 0x6c, 0xad, 0xc0,
   0x01, 0x62, 0x2f, 0xb5, 0xe3, 0x63, 0xb4, 0x21]

/-- Constant `EMPTY_VALUE_STR = "0x00"`: the canonical empty-value sentinel, one zero byte. -/
def EMPTY_VALUE : List Nat := [0x00]

/-- The `crate::error::Error` type, restricted to the cases `node.rs` produces:
`rlpError` stands for any error propagated from the external RLP decoder, and
`internalError msg` is `Error::InternalError(msg)` with the exact message string
of the source.  The spec's error taxonomy maps onto the messages as follows:
`MissingProof` = "Root is not empty, hence some proof is needed";
`ValueMismatch` (empty root) = "Value should be empty, since root is empty";
`HashMismatch` = "proof entry hash does not match the node root";
`KeyMismatch` = "key in leaf does not match input";
`ValueMismatch` (leaf) = "value in leaf does not match input";
`InvalidHashLength` = "invalid hash length in Extension";
`UnknownShape` = "Unknown num_items";
`InternalError` (descent) = "this should not happen in load_proof". -/
inductive Error where
  | rlpError : Error
  | internalError (msg : String) : Error
deriving DecidableEq, Repr

mutual
/-- Rust `struct Node { hash: H256, should_hash_keys: bool, data: Box<NodeData> }`. -/
inductive Node where
  | mk (hash : List Nat) (should_hash_keys : Bool) (data : NodeData) : Node

/-- Rust `enum NodeData { Unknown, Leaf{key,value}, Branch([Option<Node>;17]), Extension{key,node} }`.
The 17-slot array is modelled as a list (the decoder only ever builds length-17 lists). -/
inductive NodeData where
  | unknown : NodeData
  | leaf (key value : List Nat) : NodeData
  | branch (children : List (Option Node)) : NodeData
  | extension (key : List Nat) (node : Node) : NodeData
end

/-- Field access `node.hash`. -/
def Node.hash : Node → List Nat
  | .mk h _ _ => h

/-- Field access `node.should_hash_keys`. -/
def Node.shouldHashKeys : Node → Bool
  | .mk _ s _ => s

/-- Field access `node.data` (the boxed `NodeData`). -/
def Node.data : Node → NodeData
  | .mk _ _ d => d

/-- Constructor `Node::new(root)`: hash = root, should_hash_keys = true, data = Unknown. -/
def Node.new (root : List Nat) : Node := .mk root true .unknown

/-- Assignment `*self.data = val`: the node with its data field overwritten. -/
def Node.withData : Node → NodeData → Node
  | .mk h s _, d => .mk h s d

/-- Modelled from the spec: the hex-pre-fix Key codec lives in
`src/state_root/key.rs`, which is not under `src/`;  §6 of the spec gives its
interface: `decode_prefixed(bytes) -> (nibble-path, terminator)`, where the
first nibble's low bit encodes path-length parity and its next bit encodes the
terminator flag.  `keyTerminator` is the terminator flag returned by
`Key::from_bytes_with_prefix`. -/
def keyTerminator (bs : List Nat) : Bool :=
  match bs with
  | [] => false
  | b :: _ => (b / 32) % 2 = 1

/-- Modelled from the spec: `Key::without_prefix` / `strip_prefix(bytes) -> nibble-path`
of the Key codec in `src/state_root/key.rs` (not under `src/`).  Even parity:
the whole flag byte is dropped; odd parity: the flag byte's low nibble is the
first path nibble.  Matches the spec's literal fixtures (flag byte `0x20`
stripped from a leaf key). -/
def keyBare (bs : List Nat) : List Nat :=
  match bs with
  | [] => []
  | b :: rest => if (b / 16) % 2 = 1 then (b % 16) :: rest else rest

/-- The `for i in 0..17` loop body of `NodeData::new`'s 17-item arm: each item of
raw byte length 32 becomes `Some(Node::new(hash))`, length 0 becomes `None`, any
other length is `Err(InternalError("invalid hash length in Extension"))` (the
source reuses the Extension message).  The loop stops at the first bad item. -/
def branchSlots : List (List Nat) → Except Error (List (Option Node))
  | [] => .ok []
  | v :: rest =>
    if v.length = 32 then
      match branchSlots rest with
      | .ok r => .ok (some (Node.new v) :: r)
      | .error e => .error e
    else if v.length = 0 then
      match branchSlots rest with
      | .ok r => .ok (none :: r)
      | .error e => .error e
    else .error (.internalError "invalid hash length in Extension")

/-- Decoder `NodeData::new(raw)`: decode `raw` as an RLP list; 2 items → leaf or
extension (by the key terminator flag; an extension's second item must be 32
bytes), 17 items → branch via `branchSlots`, any other item count →
`Err(InternalError("Unknown num_items"))`. -/
def NodeData.new (rlp : List Nat → Option (List (List Nat))) (raw : List Nat) :
    Except Error NodeData :=
  match rlp raw with
  | none => .error Error.rlpError
  | some items =>
    match items with
    | [val0, val1] =>
      if keyTerminator val0 then
        .ok (.leaf (keyBare val0) val1)
      else if val1.length = 32 then
        .ok (.extension (keyBare val0) (Node.new val1))
      else
        .error (Error.internalError "invalid hash length in Extension")
    | _ =>
      if items.length = 17 then
        match branchSlots items with
        | .ok arr => .ok (.branch arr)
        | .error e => .error e
      else .error (Error.internalError "Unknown num_items")

/-- The `for _child in arr` loop of `Node::load_proof`'s Branch arm: scan the 17
slots in order; for every populated slot whose stored hash equals
`keccak(child_proof[0])`, run `child.load_proof(key_, value_, child_proof)` on
the clone and propagate its error via `?`; if the loop completes, `Ok(())`.
`rec` is the recursive verifier applied to the child (mutations of the cloned
child are discarded, so only the `Result` component is consumed). -/
def loadBranchAux (rec : Node → List Nat → List Nat → List (List Nat) → Node × Except Error Unit)
    (nextHash key_ value_ : List Nat) (childProof : List (List Nat)) :
    List (Option Node) → Except Error Unit
  | [] => .ok ()
  | none :: rest => loadBranchAux rec nextHash key_ value_ childProof rest
  | some child :: rest =>
    if child.hash = nextHash then
      match (rec child key_ value_ childProof).2 with
      | .error e => .error e
      | .ok _ => loadBranchAux rec nextHash key_ value_ childProof rest
    else loadBranchAux rec nextHash key_ value_ childProof rest

/-- The fill-and-check step of `Node::load_proof` (lines 64-77 of `node.rs`):
when `self.data` is `Unknown` it is overwritten with the decoded value, and when
that decoded value is a `Leaf` its key and value are compared with the caller's
`key_` and `value_`; a mismatch produces the KeyMismatch / ValueMismatch error
(after the fill).  When `self.data` is already concrete nothing happens. -/
def fillStep (node : Node) (val : NodeData) (key_ value_ : List Nat) : Node × Option Error :=
  match node.data with
  | NodeData.unknown =>
    let node' := node.withData val
    match val with
    | NodeData.leaf k v =>
      if k ≠ key_ then
        (node', some (Error.internalError "key in leaf does not match input"))
      else if v ≠ value_ then
        (node', some (Error.internalError "value in leaf does not match input"))
      else (node', none)
    | _ => (node', none)
  | _ => (node, none)

/-- Function `Node::load_proof(&mut self, key_, value_, proof)`, fuel-indexed so the
recursion is structural (the fuel strictly dominates the proof length; the
public wrapper `Node.load_proof` supplies `proof.length + 1`, so the `0` case is
unreachable).  Returns the updated node (Rust mutates `self` through `&mut`)
paired with the `Result`. -/
def loadProofAux (keccak : List Nat → List Nat) (rlp : List Nat → Option (List (List Nat))) :
    Nat → Node → List Nat → List Nat → List (List Nat) → Node × Except Error Unit
  | 0, node, _, _, _ => (node, .error (Error.internalError "fuel exhausted"))
  | _ + 1, node, _, value_, [] =>
    -- empty proof: require the empty root and the empty-value sentinel
    if node.hash ≠ EMPTY_ROOT then
      (node, .error (Error.internalError "Root is not empty, hence some proof is needed"))
    else if value_ ≠ EMPTY_VALUE then
      (node, .error (Error.internalError "Value should be empty, since root is empty"))
    else
      (node, .ok ())
  | f + 1, node, key_, value_, entry :: rest =>
    -- chain-of-custody: the first proof entry must hash to this node's hash
    if keccak entry ≠ node.hash then
      (node, .error (Error.internalError "proof entry hash does not match the node root"))
    else
      match NodeData.new rlp entry with
      | .error e => (node, .error e)
      | .ok val =>
        -- fill self.data when it is Unknown; for a decoded Leaf also check key/value
        match fillStep node val key_ value_ with
        | (node', some e) => (node', .error e)
        | (node', none) =>
          match rest with
          | [] => (node', .ok ())
          | nextEntry :: _ =>
            -- descend according to the decoded shape (match on *self.data.clone())
            match node'.data with
            | NodeData.extension k child =>
              (node', (loadProofAux keccak rlp f child k value_ rest).2)
            | NodeData.branch arr =>
              (node', loadBranchAux (loadProofAux keccak rlp f) (keccak nextEntry)
                        key_ value_ rest arr)
            | _ => (node', .error (Error.internalError "this should not happen in load_proof"))

/-- Entry point `Node::load_proof` with adequate fuel: the entry point.  The first component
of the result is the node after the call (its `data` may have been filled); the
second is the Rust `Result<(), Error>`. -/
def Node.load_proof (keccak : List Nat → List Nat)
    (rlp : List Nat → Option (List (List Nat)))
    (node : Node) (key_ value_ : List Nat) (proof : List (List Nat)) :
    Node × Except Error Unit :=
  loadProofAux keccak rlp (proof.length + 1) node key_ value_ proof

/-- Function `Node::get_key`: hash the key iff `should_hash_keys` is set. -/
def Node.get_key (keccak : List Nat → List Nat) (node : Node) (key : List Nat) : List Nat :=
  if node.shouldHashKeys then keccak key else key

/-! ## Helper lemmas -/

theorem Node.hash_withData (node : Node) (d : NodeData) : (node.withData d).hash = node.hash := by
  cases node
  rfl

theorem Node.data_withData (node : Node) (d : NodeData) : (node.withData d).data = d := by
  cases node
  rfl

theorem fillStep_fst_hash (node : Node) (val : NodeData) (key_ value_ : List Nat) :
    ((fillStep node val key_ value_).1).hash = node.hash := by
  unfold fillStep
  split
  · split
    · split
      · simp [Node.hash_withData]
      · split
        · simp [Node.hash_withData]
        · simp [Node.hash_withData]
    · simp [Node.hash_withData]
  · rfl

theorem loadBranchAux_no_match
    (rec : Node → List Nat → List Nat → List (List Nat) → Node × Except Error Unit)
    (nextHash key_ value_ : List Nat) (childProof : List (List Nat))
    (l : List (Option Node))
    (h : ∀ x ∈ l, ∀ n, x = some n → n.hash ≠ nextHash) :
    loadBranchAux rec nextHash key_ value_ childProof l = .ok () := by
  induction l with
  | nil => rfl
  | cons a rest ih =>
    cases a with
    | none =>
      simp only [loadBranchAux]
      exact ih (fun x hx => h x (List.mem_cons_of_mem _ hx))
    | some child =>
      have hne : child.hash ≠ nextHash := h (some child) (List.mem_cons_self _ _) child rfl
      simp only [loadBranchAux, if_neg hne]
      exact ih (fun x hx => h x (List.mem_cons_of_mem _ hx))

theorem loadBranchAux_unique
    (rec : Node → List Nat → List Nat → List (List Nat) → Node × Except Error Unit)
    (nextHash key_ value_ : List Nat) (childProof : List (List Nat))
    (as bs : List (Option Node)) (c : Node)
    (hc : c.hash = nextHash)
    (ha : ∀ x ∈ as, ∀ n, x = some n → n.hash ≠ nextHash)
    (hb : ∀ x ∈ bs, ∀ n, x = some n → n.hash ≠ nextHash) :
    loadBranchAux rec nextHash key_ value_ childProof (as ++ some c :: bs) =
      (rec c key_ value_ childProof).2 := by
  induction as with
  | nil =>
    simp only [List.nil_append, loadBranchAux, if_pos hc]
    cases hres : (rec c key_ value_ childProof).2 with
    | error e => rfl
    | ok u =>
      cases u
      exact loadBranchAux_no_match rec nextHash key_ value_ childProof bs hb
  | cons a rest ih =>
    have ih' := ih (fun x hx => ha x (List.mem_cons_of_mem _ hx))
    cases a with
    | none => simpa only [List.cons_append, loadBranchAux] using ih'
    | some child =>
      have hne : child.hash ≠ nextHash := ha (some child) (List.mem_cons_self _ _) child rfl
      simpa only [List.cons_append, loadBranchAux, if_neg hne] using ih'

theorem branchSlots_ok (l : List (List Nat))
    (h : ∀ v ∈ l, v.length = 0 ∨ v.length = 32) :
    ∃ r, branchSlots l = .ok r := by
  induction l with
  | nil => exact ⟨[], rfl⟩
  | cons v rest ih =>
    obtain ⟨r, hr⟩ := ih (fun x hx => h x (List.mem_cons_of_mem _ hx))
    rcases h v (List.mem_cons_self _ _) with h0 | h32
    · refine ⟨none :: r, ?_⟩
      have : ¬ v.length = 32 := by omega
      simp only [branchSlots, if_neg this, if_pos h0, hr]
    · exact ⟨some (Node.new v) :: r, by simp only [branchSlots, if_pos h32, hr]⟩

theorem branchSlots_error (l : List (List Nat))
    (h : ∃ v ∈ l, v.length ≠ 0 ∧ v.length ≠ 32) :
    branchSlots l = .error (Error.internalError "invalid hash length in Extension") := by
  induction l with
  | nil => simp at h
  | cons v rest ih =>
    by_cases hgood : v.length = 0 ∨ v.length = 32
    · have hrest : ∃ w ∈ rest, w.length ≠ 0 ∧ w.length ≠ 32 := by
        rcases h with ⟨w, hw, hbad⟩
        rcases List.mem_cons.mp hw with rfl | hw'
        · exact absurd hgood (by tauto)
        · exact ⟨w, hw', hbad⟩
      have := ih hrest
      rcases hgood with h0 | h32
      · have : ¬ v.length = 32 := by omega
        simp only [branchSlots, if_neg this, if_pos h0, ih hrest]
      · simp only [branchSlots, if_pos h32, ih hrest]
    · push_neg at hgood
      simp only [branchSlots, if_neg hgood.2, if_neg hgood.1]

/-! ## Claims -/

/-- C1: for every Node and every non-empty proof, if keccak256 of the first
proof entry does not equal the Node's hash, then `load_proof` fails with the
HashMismatch error ("proof entry hash does not match the node root") and leaves
the node — in particular its `data` field — unchanged. -/
theorem C1_hash_mismatch (keccak : List Nat → List Nat)
    (rlp : List Nat → Option (List (List Nat)))
    (node : Node) (key_ value_ entry : List Nat) (rest : List (List Nat))
    (h : keccak entry ≠ node.hash) :
    node.load_proof keccak rlp key_ value_ (entry :: rest) =
      (node, .error (Error.internalError "proof entry hash does not match the node root")) := by
  simp only [Node.load_proof, List.length_cons, loadProofAux, if_pos h]

theorem C1_hash_mismatch_witness :
    (Node.new (List.replicate 32 0)).load_proof (fun _ => List.replicate 32 1) (fun _ => none)
        [] [] [[7]] =
      (Node.new (List.replicate 32 0),
       .error (Error.internalError "proof entry hash does not match the node root")) :=
  C1_hash_mismatch (fun _ => List.replicate 32 1) (fun _ => none)
    (Node.new (List.replicate 32 0)) [] [] [7] [] (by decide)

/-- C4: with an empty proof, `load_proof` succeeds exactly when the node's hash
is the canonical empty-root constant and the claimed value is the one-byte
sentinel `0x00`; a differing hash gives the MissingProof error and a matching
hash with a non-sentinel value gives the (empty-root) ValueMismatch error. -/
theorem C4_empty_proof (keccak : List Nat → List Nat)
    (rlp : List Nat → Option (List (List Nat)))
    (node : Node) (key_ value_ : List Nat) :
    node.load_proof keccak rlp key_ value_ [] =
      (node,
       if node.hash ≠ EMPTY_ROOT then
         .error (Error.internalError "Root is not empty, hence some proof is needed")
       else if value_ ≠ EMPTY_VALUE then
         .error (Error.internalError "Value should be empty, since root is empty")
       else .ok ()) ∧
    ((node.load_proof keccak rlp key_ value_ []).2 = .ok () ↔
       node.hash = EMPTY_ROOT ∧ value_ = EMPTY_VALUE) := by
  constructor
  · simp only [Node.load_proof, List.length_nil, loadProofAux]
    split
    · rfl
    · split
      · rfl
      · rfl
  · simp only [Node.load_proof, List.length_nil, loadProofAux]
    by_cases h1 : node.hash = EMPTY_ROOT
    · by_cases h2 : value_ = EMPTY_VALUE
      · simp [h1, h2]
      · simp [h1, h2]
    · simp [h1]

/-- C9: `load_proof` never changes the node's `hash` field, on success or on
failure: the hash of the returned node equals the hash of the input node for
every key, value and proof. -/
theorem C9_hash_preserved (keccak : List Nat → List Nat)
    (rlp : List Nat → Option (List (List Nat)))
    (node : Node) (key_ value_ : List Nat) (proof : List (List Nat)) :
    ((node.load_proof keccak rlp key_ value_ proof).1).hash = node.hash := by
  cases proof with
  | nil =>
    simp only [Node.load_proof, List.length_nil, loadProofAux]
    split
    · rfl
    · split
      · rfl
      · rfl
  | cons entry rest =>
    simp only [Node.load_proof, List.length_cons, loadProofAux]
    split
    · rfl
    · split
      · rfl
      · split
        · next node' e heq =>
          have h1 : node'.hash = node.hash := by
            have := congrArg Prod.fst heq
            simp only at this
            rw [← this]
            exact fillStep_fst_hash _ _ _ _
          exact h1
        · next node' heq =>
          have h1 : node'.hash = node.hash := by
            have := congrArg Prod.fst heq
            simp only at this
            rw [← this]
            exact fillStep_fst_hash _ _ _ _
          split
          · exact h1
          · split
            · exact h1
            · exact h1
            · exact h1

theorem load_proof_single_leaf (keccak : List Nat → List Nat)
    (rlp : List Nat → Option (List (List Nat)))
    (node : Node) (key_ value_ entry lk lv : List Nat)
    (hdata : node.data = NodeData.unknown)
    (hhash : keccak entry = node.hash)
    (hdec : NodeData.new rlp entry = .ok (NodeData.leaf lk lv)) :
    node.load_proof keccak rlp key_ value_ [entry] =
      (node.withData (NodeData.leaf lk lv),
       if lk ≠ key_ then .error (Error.internalError "key in leaf does not match input")
       else if lv ≠ value_ then .error (Error.internalError "value in leaf does not match input")
       else .ok ()) := by
  have hfill : fillStep node (NodeData.leaf lk lv) key_ value_ =
      (node.withData (NodeData.leaf lk lv),
       if lk ≠ key_ then some (Error.internalError "key in leaf does not match input")
       else if lv ≠ value_ then some (Error.internalError "value in leaf does not match input")
       else none) := by
    simp only [fillStep, hdata]
    by_cases hk : lk = key_ <;> by_cases hv : lv = value_ <;> simp [hk, hv]
  simp only [Node.load_proof, List.length_cons, List.length_nil, loadProofAux, hhash, hdec, hfill]
  by_cases hk : lk = key_ <;> by_cases hv : lv = value_ <;> simp [hk, hv]

/-- C3: for a single-entry proof whose entry hashes to the (still-unresolved)
node's hash and decodes to a Leaf, `load_proof` succeeds iff the decoded leaf
key equals the caller's claimed key and the decoded leaf value equals the
caller's claimed value; a key mismatch yields the KeyMismatch error and a value
mismatch the ValueMismatch error. -/
theorem C3_leaf_fidelity (keccak : List Nat → List Nat)
    (rlp : List Nat → Option (List (List Nat)))
    (node : Node) (key_ value_ entry lk lv : List Nat)
    (hdata : node.data = NodeData.unknown)
    (hhash : keccak entry = node.hash)
    (hdec : NodeData.new rlp entry = .ok (NodeData.leaf lk lv)) :
    ((node.load_proof keccak rlp key_ value_ [entry]).2 = .ok () ↔
        lk = key_ ∧ lv = value_) ∧
    (lk ≠ key_ →
      (node.load_proof keccak rlp key_ value_ [entry]).2 =
        .error (Error.internalError "key in leaf does not match input")) ∧
    (lk = key_ → lv ≠ value_ →
      (node.load_proof keccak rlp key_ value_ [entry]).2 =
        .error (Error.internalError "value in leaf does not match input")) := by
  have hres := load_proof_single_leaf keccak rlp node key_ value_ entry lk lv hdata hhash hdec
  refine ⟨?_, ?_, ?_⟩
  · rw [hres]
    by_cases hk : lk = key_ <;> by_cases hv : lv = value_ <;> simp [hk, hv]
  · intro hk
    rw [hres]
    simp [hk]
  · intro hk hv
    rw [hres]
    simp [hk, hv]

theorem C3_leaf_fidelity_witness :
    ((Node.mk (List.replicate 32 3) true NodeData.unknown).load_proof
        (fun _ => List.replicate 32 3) (fun _ => some [[0x20], [9]])
        [] [9] [[1]]).2 = .ok () :=
  (C3_leaf_fidelity (fun _ => List.replicate 32 3) (fun _ => some [[0x20], [9]])
      (Node.mk (List.replicate 32 3) true NodeData.unknown)
      [] [9] [1] [] [9] rfl rfl rfl).1.mpr ⟨rfl, rfl⟩

/-- C10: for a node whose data is Unknown and a single-entry proof that hashes
correctly but decodes to a Leaf whose key or value differs from the claimed
one, `load_proof` returns the mismatch error with the node's data already set
to the decoded Leaf: the fill happens before the key/value comparison and is
not rolled back on error. -/
theorem C10_fill_before_check (keccak : List Nat → List Nat)
    (rlp : List Nat → Option (List (List Nat)))
    (node : Node) (key_ value_ entry lk lv : List Nat)
    (hdata : node.data = NodeData.unknown)
    (hhash : keccak entry = node.hash)
    (hdec : NodeData.new rlp entry = .ok (NodeData.leaf lk lv)) :
    (lk ≠ key_ →
      node.load_proof keccak rlp key_ value_ [entry] =
        (node.withData (NodeData.leaf lk lv),
         .error (Error.internalError "key in leaf does not match input"))) ∧
    (lk = key_ → lv ≠ value_ →
      node.load_proof keccak rlp key_ value_ [entry] =
        (node.withData (NodeData.leaf lk lv),
         .error (Error.internalError "value in leaf does not match input"))) := by
  have hres := load_proof_single_leaf keccak rlp node key_ value_ entry lk lv hdata hhash hdec
  constructor
  · intro hk
    rw [hres]
    simp [hk]
  · intro hk hv
    rw [hres]
    simp [hk, hv]

theorem C10_fill_before_check_witness :
    (Node.mk (List.replicate 32 3) true NodeData.unknown).load_proof
        (fun _ => List.replicate 32 3) (fun _ => some [[0x20], [9]])
        [5] [9] [[1]] =
      ((Node.mk (List.replicate 32 3) true NodeData.unknown).withData (NodeData.leaf [] [9]),
       .error (Error.internalError "key in leaf does not match input")) :=
  (C10_fill_before_check (fun _ => List.replicate 32 3) (fun _ => some [[0x20], [9]])
      (Node.mk (List.replicate 32 3) true NodeData.unknown)
      [5] [9] [1] [] [9] rfl rfl rfl).1 (by decide)

/-- C2 (amended): for a proof with more than one entry whose first entry decodes
to an Extension, `load_proof` recurses on the decoded child with the
extension's own decoded key — not the caller's key — together with the caller's
claimed value and the remaining proof entries, and returns the recursive
result unchanged (the caller's node keeps only the filled data). -/
theorem C2_extension_descent (keccak : List Nat → List Nat)
    (rlp : List Nat → Option (List (List Nat)))
    (node : Node) (key_ value_ entry next : List Nat) (more : List (List Nat))
    (k : List Nat) (c : Node)
    (hdata : node.data = NodeData.unknown)
    (hhash : keccak entry = node.hash)
    (hdec : NodeData.new rlp entry = .ok (NodeData.extension k c)) :
    node.load_proof keccak rlp key_ value_ (entry :: next :: more) =
      (node.withData (NodeData.extension k c),
       (c.load_proof keccak rlp k value_ (next :: more)).2) := by
  have hfill : fillStep node (NodeData.extension k c) key_ value_ =
      (node.withData (NodeData.extension k c), none) := by
    simp only [fillStep, hdata]
  simp only [Node.load_proof, List.length_cons, loadProofAux, hhash, hdec, hfill,
    Node.data_withData]
  simp

theorem C2_extension_descent_witness :
    (Node.mk (List.replicate 32 1) true NodeData.unknown).load_proof
        (fun b => if b = [1] then List.replicate 32 1 else List.replicate 32 2)
        (fun b => if b = [1] then some [[0x00, 0xAB], List.replicate 32 2]
                  else some [[0x20, 0xAB], [0x09]])
        [0xCD] [0x09] [[1], [2]] =
      ((Node.mk (List.replicate 32 1) true NodeData.unknown).withData
          (NodeData.extension [0xAB] (Node.new (List.replicate 32 2))),
       ((Node.new (List.replicate 32 2)).load_proof
          (fun b => if b = [1] then List.replicate 32 1 else List.replicate 32 2)
          (fun b => if b = [1] then some [[0x00, 0xAB], List.replicate 32 2]
                    else some [[0x20, 0xAB], [0x09]])
          [0xAB] [0x09] [[2]]).2) :=
  C2_extension_descent
    (fun b => if b = [1] then List.replicate 32 1 else List.replicate 32 2)
    (fun b => if b = [1] then some [[0x00, 0xAB], List.replicate 32 2]
              else some [[0x20, 0xAB], [0x09]])
    (Node.mk (List.replicate 32 1) true NodeData.unknown)
    [0xCD] [0x09] [1] [2] [] [0xAB] (Node.new (List.replicate 32 2))
    rfl rfl rfl

/-- C2 (counterexample): the claim as stated — that the extension descent passes
the caller's key to the recursive call — is false.  Concretely: the first proof
entry decodes to an Extension whose key `[0xAB]` differs from the caller's key
`[0xCD]`; the actual verification succeeds, while verifying the remaining proof
against the decoded child with the caller's key fails with the KeyMismatch
error, so the recursion cannot have received the caller's key. -/
theorem C2_caller_key_counterexample :
    NodeData.new
        (fun b => if b = [1] then some [[0x00, 0xAB], List.replicate 32 2]
                  else some [[0x20, 0xAB], [0x09]]) [1] =
      .ok (NodeData.extension [0xAB] (Node.new (List.replicate 32 2))) ∧
    ((Node.mk (List.replicate 32 1) true NodeData.unknown).load_proof
        (fun b => if b = [1] then List.replicate 32 1 else List.replicate 32 2)
        (fun b => if b = [1] then some [[0x00, 0xAB], List.replicate 32 2]
                  else some [[0x20, 0xAB], [0x09]])
        [0xCD] [0x09] [[1], [2]]).2 = .ok () ∧
    ((Node.new (List.replicate 32 2)).load_proof
        (fun b => if b = [1] then List.replicate 32 1 else List.replicate 32 2)
        (fun b => if b = [1] then some [[0x00, 0xAB], List.replicate 32 2]
                  else some [[0x20, 0xAB], [0x09]])
        [0xCD] [0x09] [[2]]).2 =
      .error (Error.internalError "key in leaf does not match input") ∧
    ¬ (((Node.mk (List.replicate 32 1) true NodeData.unknown).load_proof
        (fun b => if b = [1] then List.replicate 32 1 else List.replicate 32 2)
        (fun b => if b = [1] then some [[0x00, 0xAB], List.replicate 32 2]
                  else some [[0x20, 0xAB], [0x09]])
        [0xCD] [0x09] [[1], [2]]).2 =
       ((Node.new (List.replicate 32 2)).load_proof
        (fun b => if b = [1] then List.replicate 32 1 else List.replicate 32 2)
        (fun b => if b = [1] then some [[0x00, 0xAB], List.replicate 32 2]
                  else some [[0x20, 0xAB], [0x09]])
        [0xCD] [0x09] [[2]]).2) := by
  refine ⟨rfl, rfl, rfl, ?_⟩
  intro h
  rw [show ((Node.mk (List.replicate 32 1) true NodeData.unknown).load_proof
        (fun b => if b = [1] then List.replicate 32 1 else List.replicate 32 2)
        (fun b => if b = [1] then some [[0x00, 0xAB], List.replicate 32 2]
                  else some [[0x20, 0xAB], [0x09]])
        [0xCD] [0x09] [[1], [2]]).2 = Except.ok () from rfl] at h
  rw [show ((Node.new (List.replicate 32 2)).load_proof
        (fun b => if b = [1] then List.replicate 32 1 else List.replicate 32 2)
        (fun b => if b = [1] then some [[0x00, 0xAB], List.replicate 32 2]
                  else some [[0x20, 0xAB], [0x09]])
        [0xCD] [0x09] [[2]]).2 =
      Except.error (Error.internalError "key in leaf does not match input") from rfl] at h
  exact Except.noConfusion h

theorem NodeData.new_not_two (rlp : List Nat → Option (List (List Nat)))
    (raw : List Nat) (items : List (List Nat))
    (h : rlp raw = some items) (hlen : items.length ≠ 2) :
    NodeData.new rlp raw =
      (if items.length = 17 then
        match branchSlots items with
        | .ok arr => .ok (.branch arr)
        | .error e => .error e
      else .error (Error.internalError "Unknown num_items")) := by
  unfold NodeData.new
  rw [h]
  rcases items with _ | ⟨a, _ | ⟨b, _ | ⟨c, t⟩⟩⟩
  · rfl
  · rfl
  · exact absurd rfl hlen
  · rfl

/-- C5: for a proof with more than one entry whose first entry decodes to a
Branch in which exactly one populated slot stores the hash of the next proof
entry (all slots before and after the matching one either are empty or store a
different hash), `load_proof` descends into exactly that slot: its overall
result is the result of verifying the remaining proof entries against that
child alone, with any error from the recursive call propagated unchanged. -/
theorem C5_branch_unique_descent (keccak : List Nat → List Nat)
    (rlp : List Nat → Option (List (List Nat)))
    (node : Node) (key_ value_ entry next : List Nat) (more : List (List Nat))
    (as bs : List (Option Node)) (c : Node)
    (hdata : node.data = NodeData.unknown)
    (hhash : keccak entry = node.hash)
    (hdec : NodeData.new rlp entry = .ok (NodeData.branch (as ++ some c :: bs)))
    (hc : c.hash = keccak next)
    (ha : ∀ x ∈ as, ∀ n, x = some n → n.hash ≠ keccak next)
    (hb : ∀ x ∈ bs, ∀ n, x = some n → n.hash ≠ keccak next) :
    node.load_proof keccak rlp key_ value_ (entry :: next :: more) =
      (node.withData (NodeData.branch (as ++ some c :: bs)),
       (c.load_proof keccak rlp key_ value_ (next :: more)).2) := by
  have hfill : fillStep node (NodeData.branch (as ++ some c :: bs)) key_ value_ =
      (node.withData (NodeData.branch (as ++ some c :: bs)), none) := by
    simp only [fillStep, hdata]
  have hbr := loadBranchAux_unique (loadProofAux keccak rlp (more.length + 1 + 1))
      (keccak next) key_ value_ (next :: more) as bs c hc ha hb
  simp only [Node.load_proof, List.length_cons, loadProofAux, hhash, hdec, hfill,
    Node.data_withData, hbr]
  simp

theorem C5_branch_unique_descent_witness :
    (Node.mk (List.replicate 32 1) true NodeData.unknown).load_proof
        (fun b => if b = [1] then List.replicate 32 1 else List.replicate 32 2)
        (fun b => if b = [1] then some (List.replicate 32 2 :: List.replicate 16 [])
                  else some [[0x20, 0xAB], [0x09]])
        [0xAB] [0x09] [[1], [2]] =
      ((Node.mk (List.replicate 32 1) true NodeData.unknown).withData
          (NodeData.branch ([] ++ some (Node.new (List.replicate 32 2)) ::
            List.replicate 16 none)),
       ((Node.new (List.replicate 32 2)).load_proof
          (fun b => if b = [1] then List.replicate 32 1 else List.replicate 32 2)
          (fun b => if b = [1] then some (List.replicate 32 2 :: List.replicate 16 [])
                    else some [[0x20, 0xAB], [0x09]])
          [0xAB] [0x09] [[2]]).2) :=
  C5_branch_unique_descent
    (fun b => if b = [1] then List.replicate 32 1 else List.replicate 32 2)
    (fun b => if b = [1] then some (List.replicate 32 2 :: List.replicate 16 [])
              else some [[0x20, 0xAB], [0x09]])
    (Node.mk (List.replicate 32 1) true NodeData.unknown)
    [0xAB] [0x09] [1] [2] [] [] (List.replicate 16 none)
    (Node.new (List.replicate 32 2))
    rfl rfl rfl rfl
    (by intro x hx n hn; simp at hx)
    (by
      intro x hx n hn
      rw [List.eq_of_mem_replicate hx] at hn
      exact Option.noConfusion hn)

/-- C6: for a proof with more than one entry whose first entry decodes to a
Branch in which no populated slot stores the hash of the next proof entry,
`load_proof` returns success: the remaining proof entries are never validated
and no leaf key or value is compared (the conclusion holds for every tail
`more`, which is therefore never examined). -/
theorem C6_branch_no_match_success (keccak : List Nat → List Nat)
    (rlp : List Nat → Option (List (List Nat)))
    (node : Node) (key_ value_ entry next : List Nat) (more : List (List Nat))
    (arr : List (Option Node))
    (hdata : node.data = NodeData.unknown)
    (hhash : keccak entry = node.hash)
    (hdec : NodeData.new rlp entry = .ok (NodeData.branch arr))
    (hnone : ∀ x ∈ arr, ∀ n, x = some n → n.hash ≠ keccak next) :
    node.load_proof keccak rlp key_ value_ (entry :: next :: more) =
      (node.withData (NodeData.branch arr), .ok ()) := by
  have hfill : fillStep node (NodeData.branch arr) key_ value_ =
      (node.withData (NodeData.branch arr), none) := by
    simp only [fillStep, hdata]
  have hbr := loadBranchAux_no_match (loadProofAux keccak rlp (more.length + 1 + 1))
      (keccak next) key_ value_ (next :: more) arr hnone
  simp only [Node.load_proof, List.length_cons, loadProofAux, hhash, hdec, hfill,
    Node.data_withData, hbr]
  simp

theorem C6_branch_no_match_success_witness :
    (Node.mk (List.replicate 32 1) true NodeData.unknown).load_proof
        (fun _ => List.replicate 32 1)
        (fun _ => some (List.replicate 17 []))
        [0xAB] [0x09] [[1], [2], [3]] =
      ((Node.mk (List.replicate 32 1) true NodeData.unknown).withData
          (NodeData.branch (List.replicate 17 none)), .ok ()) :=
  C6_branch_no_match_success
    (fun _ => List.replicate 32 1)
    (fun _ => some (List.replicate 17 []))
    (Node.mk (List.replicate 32 1) true NodeData.unknown)
    [0xAB] [0x09] [1] [2] [[3]] (List.replicate 17 none)
    rfl rfl rfl
    (by
      intro x hx n hn
      rw [List.eq_of_mem_replicate hx] at hn
      exact Option.noConfusion hn)

/-- C7: for every RLP input that decodes as a 2-item list whose key terminator
flag is false, `NodeData.new` fails with the InvalidHashLength error unless
item 1 is exactly 32 bytes long (in which case it produces the Extension with
that hash, never truncating or padding); and for every input that decodes as a
17-item list, it fails with the InvalidHashLength error when any item's length
is neither 0 nor 32, and produces a Branch when every item's length is 0 or 32. -/
theorem C7_invalid_hash_length (rlp : List Nat → Option (List (List Nat)))
    (raw : List Nat) (items : List (List Nat)) (val0 val1 : List Nat) :
    (rlp raw = some [val0, val1] → keyTerminator val0 = false →
      ((val1.length ≠ 32 →
         NodeData.new rlp raw = .error (Error.internalError "invalid hash length in Extension")) ∧
       (val1.length = 32 →
         NodeData.new rlp raw = .ok (NodeData.extension (keyBare val0) (Node.new val1))))) ∧
    (rlp raw = some items → items.length = 17 →
      (((∃ v ∈ items, v.length ≠ 0 ∧ v.length ≠ 32) →
         NodeData.new rlp raw = .error (Error.internalError "invalid hash length in Extension")) ∧
       ((∀ v ∈ items, v.length = 0 ∨ v.length = 32) →
         ∃ arr, NodeData.new rlp raw = .ok (NodeData.branch arr)))) := by
  constructor
  · intro h hterm
    constructor
    · intro hbad
      simp only [NodeData.new, h, hterm, Bool.false_eq_true, if_false, if_neg hbad]
    · intro hgood
      simp only [NodeData.new, h, hterm, Bool.false_eq_true, if_false, if_pos hgood]
  · intro h h17
    rw [NodeData.new_not_two rlp raw items h (by omega), if_pos h17]
    constructor
    · intro hbad
      rw [branchSlots_error items hbad]
    · intro hgood
      obtain ⟨r, hr⟩ := branchSlots_ok items hgood
      rw [hr]
      exact ⟨r, rfl⟩

theorem C7_invalid_hash_length_witness :
    NodeData.new (fun _ => some [[0x00], [1, 2, 3]]) [] =
      .error (Error.internalError "invalid hash length in Extension") ∧
    NodeData.new (fun _ => some (List.replicate 16 [] ++ [[5]])) [] =
      .error (Error.internalError "invalid hash length in Extension") :=
  ⟨((C7_invalid_hash_length (fun _ => some [[0x00], [1, 2, 3]]) [] [] [0x00] [1, 2, 3]).1
      rfl rfl).1 (by decide),
   ((C7_invalid_hash_length (fun _ => some (List.replicate 16 [] ++ [[5]])) []
      (List.replicate 16 [] ++ [[5]]) [] []).2 rfl (by decide)).1
     ⟨[5], by simp, by decide⟩⟩

/-- C8: for every RLP input that decodes as a list whose item count is neither
2 nor 17, `NodeData.new` fails with the UnknownShape error and produces no
NodeData variant. -/
theorem C8_unknown_shape (rlp : List Nat → Option (List (List Nat)))
    (raw : List Nat) (items : List (List Nat))
    (h : rlp raw = some items) (h2 : items.length ≠ 2) (h17 : items.length ≠ 17) :
    NodeData.new rlp raw = .error (Error.internalError "Unknown num_items") := by
  rw [NodeData.new_not_two rlp raw items h h2, if_neg h17]

theorem C8_unknown_shape_witness :
    NodeData.new (fun _ => some [[], [], []]) [7] =
      .error (Error.internalError "Unknown num_items") :=
  C8_unknown_shape (fun _ => some [[], [], []]) [7] [[], [], []] rfl (by decide) (by decide)

end ZkMPT
